import Mathlib

/-!
Verification of the MHC ETL data loader (`data_loader.py`).

The loader's values are modelled shallowly:
* a Python string is a `List Char` (`LC`);
* a pandas cell is `Cell` (`na` for NaN/missing, `str` for text);
* a general Python value handed to `create_participant_id` is `PyVal`
  (`none`, a non-string such as an int, or a string);
* `pd.to_datetime(...).strftime('%Y-%m-%d')` round-trips through an ISO
  string, so a normalized date is modelled as its parsed day number
  (`Option Int`), and the external pandas date/number parsers are taken
  as parameters `dp`/`np` of the extractor pipelines;
* the sqlite connection is modelled from the spec's
  execute-script/insert-rows/commit/rollback contract (the engine itself
  is declared out of scope by the spec).
-/

abbrev LC := List Char

/-- Python `str.lower()` (per-character, as used on ASCII headers/names). -/
def pyLower (s : LC) : LC := s.map Char.toLower

/-- Python `str.upper()` (per-character, as used on ASCII headers/keywords). -/
def pyUpper (s : LC) : LC := s.map Char.toUpper

/-- Python whitespace characters recognised by `str.strip()`. -/
def isPySpace (c : Char) : Bool :=
  c == ' ' || c == '\t' || c == '\n' || c == '\r' || c == Char.ofNat 11 || c == Char.ofNat 12

/-- Python `str.strip()`: drop leading and trailing whitespace. -/
def pyStrip (s : LC) : LC :=
  ((s.dropWhile isPySpace).reverse.dropWhile isPySpace).reverse

/-- Does `needle` occur at the head of `hay`? (helper for substring tests). -/
def startsWith : LC → LC → Bool
  | [], _ => true
  | _ :: _, [] => false
  | a :: as, b :: bs => a == b && startsWith as bs

/-- Python `needle in hay` substring containment for strings. -/
def isSubstr (needle : LC) : LC → Bool
  | [] => needle.isEmpty
  | c :: t => startsWith needle (c :: t) || isSubstr needle t

/-- Python `str.replace(needle, repl)` for a non-empty needle: leftmost,
non-overlapping occurrences are replaced.  (The loader only calls it with
the literal needle `'G/Convicted'`.) -/
def replaceSub (needle repl : LC) : LC → LC
  | [] => []
  | c :: t =>
    if needle ≠ [] ∧ startsWith needle (c :: t) = true then
      repl ++ replaceSub needle repl (t.drop (needle.length - 1))
    else
      c :: replaceSub needle repl t
  termination_by l => l.length
  decreasing_by
  · simp only [List.length_cons, List.length_drop]
    exact Nat.lt_succ_of_le (Nat.sub_le _ _)
  · simp only [List.length_cons]
    exact Nat.lt_succ_self _

/-- A pandas cell: NaN/missing, or a text value. -/
inductive Cell where
  | na
  | str (s : LC)
deriving DecidableEq

/-- Pandas `Series.notna` / `isna` on a cell. -/
def Cell.isNa : Cell → Bool
  | Cell.na => true
  | Cell.str _ => false

/-- Pandas `.astype(str)`: NaN stringifies to the literal text `"nan"`. -/
def astypeStr : Cell → LC
  | Cell.na => "nan".data
  | Cell.str s => s

/-- The loader's common `.astype(str).str.strip()` column transform. -/
def astypeStrStrip (c : Cell) : LC := pyStrip (astypeStr c)

/-- Pandas `.str.strip()` (without `astype`): NaN is preserved. -/
def cellStrip : Cell → Cell
  | Cell.na => Cell.na
  | Cell.str s => Cell.str (pyStrip s)

/-- A Python value as it reaches `create_participant_id`: `None`/NaN, a
non-string value (e.g. an int), or a string. -/
inductive PyVal where
  | none
  | intVal (n : Int)
  | str (s : LC)
deriving DecidableEq

/-- View a CSV cell as the Python value handed to `create_participant_id`
(NaN is `pd.isna`-true exactly like `None`). -/
def cellToPy : Cell → PyVal
  | Cell.na => PyVal.none
  | Cell.str s => PyVal.str s

/-- The `replace(',', '-')` step of `create_participant_id`. -/
def commaToHyphen (c : Char) : Char := if c == ',' then '-' else c

/-- The string transform of `create_participant_id` on an actual string:
`lower()`, `replace(' ','')`, `replace(',','-')`, `replace('.','')`,
`replace('/','')`, `strip()`, in source order. -/
def cleanName (s : LC) : LC :=
  pyStrip (((((pyLower s).filter (fun c => c != ' ')).map commaToHyphen).filter
      (fun c => c != '.')).filter (fun c => c != '/'))

/-- `create_participant_id` from `data_loader.py`: the guard
`pd.isna(name) or not isinstance(name, str)` returns `None` for `None`/NaN
and for any non-string value; otherwise the cleaned string is returned. -/
def create_participant_id : PyVal → Option LC
  | PyVal.str s => some (cleanName s)
  | PyVal.none => Option.none
  | PyVal.intVal _ => Option.none

/-- The spec's wording of the normalizer: lowercase, remove every space,
period and forward-slash, replace every comma with a hyphen, trim. -/
def normalize_name_spec (s : LC) : LC :=
  pyStrip (((pyLower s).filter
      (fun c => c != ' ' && c != '.' && c != '/')).map commaToHyphen)

/-- `find_column_by_keywords`' inner loop over the keyword list for one
column (already uppercased): exact equality or substring containment. -/
def matchKeywordList (exact : Bool) (colU : LC) : List LC → Bool
  | [] => false
  | kw :: rest =>
    (if exact then colU == pyUpper kw else isSubstr (pyUpper kw) colU)
      || matchKeywordList exact colU rest

/-- `find_column_by_keywords` from `data_loader.py`, over the dataframe's
column list: return the first column matching any keyword. -/
def find_column_by_keywords (cols : List LC) (keywords : List LC)
    (exact_match : Bool) : Option LC :=
  match cols with
  | [] => Option.none
  | col :: rest =>
    if matchKeywordList exact_match (pyUpper col) keywords then some col
    else find_column_by_keywords rest keywords exact_match

/-- The spec's wording of a qualifying header: with `exact` set it equals
some keyword case-insensitively, otherwise it contains some keyword as a
case-insensitive substring. -/
def qualifiesSpec (exact : Bool) (keywords : List LC) (h : LC) : Bool :=
  if exact then keywords.any (fun kw => pyUpper h == pyUpper kw)
  else keywords.any (fun kw => isSubstr (pyUpper kw) (pyUpper h))

lemma matchKeywordList_eq_qualifiesSpec (exact : Bool) (h : LC) (kws : List LC) :
    matchKeywordList exact (pyUpper h) kws = qualifiesSpec exact kws h := by
  induction kws with
  | nil => cases exact <;> simp [matchKeywordList, qualifiesSpec]
  | cons kw rest ih =>
    cases exact <;>
      simp_all [matchKeywordList, qualifiesSpec, List.any_cons]

lemma find_column_eq_find? (cols kws : List LC) (e : Bool) :
    find_column_by_keywords cols kws e = cols.find? (qualifiesSpec e kws) := by
  induction cols with
  | nil => rfl
  | cons c rest ih =>
    rw [find_column_by_keywords, List.find?]
    rw [matchKeywordList_eq_qualifiesSpec]
    by_cases h : qualifiesSpec e kws c = true
    · simp [h]
    · simp only [Bool.not_eq_true] at h
      simp [h, ih]

lemma filter_map_chain (l : LC) :
    ((((l.filter (fun c => c != ' ')).map commaToHyphen).filter
        (fun c => c != '.')).filter (fun c => c != '/'))
      = (l.filter (fun c => c != ' ' && c != '.' && c != '/')).map commaToHyphen := by
  induction l with
  | nil => rfl
  | cons c t ih =>
    by_cases h1 : c = ' '
    · subst h1; simpa using ih
    · by_cases h2 : c = '.'
      · subst h2; simpa [commaToHyphen] using ih
      · by_cases h3 : c = '/'
        · subst h3; simpa [commaToHyphen] using ih
        · by_cases h4 : c = ','
          · subst h4; simpa [commaToHyphen] using ih
          · simp [List.filter_cons, List.map_cons, h1, h2, h3, h4, commaToHyphen, ih]

lemma cleanName_eq_spec (s : LC) : cleanName s = normalize_name_spec s := by
  unfold cleanName normalize_name_spec
  rw [filter_map_chain]

/-- C2: `create_participant_id` returns `None` for an absent or non-string
input and never raises; on a string it lowercases, removes spaces, maps
commas to hyphens, removes periods and slashes, and trims — with the three
spec examples. -/
theorem C2_create_participant_id_spec :
    (∀ s : LC, create_participant_id (PyVal.str s) = some (normalize_name_spec s))
    ∧ create_participant_id (PyVal.str "Smith, John".data) = some "smith-john".data
    ∧ create_participant_id PyVal.none = Option.none
    ∧ create_participant_id (PyVal.intVal 123) = Option.none := by
  refine ⟨fun s => ?_, by decide, rfl, rfl⟩
  simp [create_participant_id, cleanName_eq_spec]

/-- C3: `find_column_by_keywords` returns the first header (in declaration
order) that matches a keyword — by case-insensitive equality when `exact`
is set, by case-insensitive substring containment otherwise — and returns
absent exactly when no header qualifies; with the three spec examples. -/
theorem C3_find_column_spec :
    (∀ (cols kws : List LC) (e : Bool),
        find_column_by_keywords cols kws e = cols.find? (qualifiesSpec e kws))
    ∧ (∀ (cols kws : List LC) (e : Bool),
        find_column_by_keywords cols kws e = Option.none
          ↔ ∀ c ∈ cols, qualifiesSpec e kws c = false)
    ∧ find_column_by_keywords ["Charge Date".data, "MHC Status".data]
        ["CHARGE DATE".data] true = some "Charge Date".data
    ∧ find_column_by_keywords ["Charge Date".data] ["DATE".data] false
        = some "Charge Date".data
    ∧ find_column_by_keywords ["X".data, "Y".data] ["Z".data] false
        = Option.none := by
  refine ⟨find_column_eq_find?, fun cols kws e => ?_, by decide, by decide, by decide⟩
  rw [find_column_eq_find?, List.find?_eq_none]
  simp

/-- Pandas `drop_duplicates` keyed by `key`, keeping the first occurrence
and preserving order (also models `drop_duplicates()` on whole rows via
`key := id`, and merge-key identity where NaN matches NaN, as pandas does). -/
def dedupByKey {α κ : Type} [DecidableEq κ] (key : α → κ) : List α → List α
  | [] => []
  | a :: t => a :: dedupByKey key (t.filter (fun b => key b ≠ key a))
  termination_by l => l.length
  decreasing_by
    simp only [List.length_cons]
    exact Nat.lt_succ_of_le (List.length_filter_le _ _)

lemma mem_of_mem_dedupByKey {α κ : Type} [DecidableEq κ] (key : α → κ)
    (l : List α) (a : α) (h : a ∈ dedupByKey key l) : a ∈ l := by
  induction l using dedupByKey.induct key with
  | case1 => simp [dedupByKey] at h
  | case2 x t ih =>
    rw [dedupByKey] at h
    rcases List.mem_cons.mp h with h1 | h1
    · exact h1 ▸ List.mem_cons_self _ _
    · exact List.mem_cons_of_mem _ (List.mem_of_mem_filter (ih h1))

lemma nodup_keys_dedupByKey {α κ : Type} [DecidableEq κ] (key : α → κ)
    (l : List α) : ((dedupByKey key l).map key).Nodup := by
  induction l using dedupByKey.induct key with
  | case1 => simp [dedupByKey]
  | case2 x t ih =>
    rw [dedupByKey, List.map_cons, List.nodup_cons]
    refine ⟨?_, ih⟩
    intro hmem
    rcases List.mem_map.mp hmem with ⟨b, hb, hkb⟩
    have hbf := mem_of_mem_dedupByKey _ _ _ hb
    have := (List.mem_filter.mp hbf).2
    simp only [decide_eq_true_eq] at this
    exact this hkb

lemma find?_filter_of_imp {α : Type} (p q : α → Bool) (t : List α)
    (himp : ∀ a, p a = true → q a = true) :
    (t.filter q).find? p = t.find? p := by
  induction t with
  | nil => rfl
  | cons b t ih =>
    rw [List.filter_cons]
    by_cases hq : q b = true
    · rw [if_pos hq]
      by_cases hp : p b = true
      · rw [List.find?_cons_of_pos _ hp, List.find?_cons_of_pos _ hp]
      · rw [List.find?_cons_of_neg _ hp, List.find?_cons_of_neg _ hp, ih]
    · have hp : ¬ p b = true := fun hpb => hq (himp b hpb)
      rw [if_neg hq, ih, List.find?_cons_of_neg _ hp]

lemma find?_filter_ne_key {α κ : Type} [DecidableEq κ] [DecidableEq α]
    (key : α → κ) (k0 ka : κ) (h : ka ≠ k0) (t : List α) :
    (t.filter (fun b => key b ≠ k0)).find? (fun b => key b = ka)
      = t.find? (fun b => key b = ka) := by
  refine find?_filter_of_imp _ _ t (fun a ha => ?_)
  simp only [decide_eq_true_eq] at ha
  simp only [ha, ne_eq, decide_eq_true_eq]
  exact h

lemma mem_dedupByKey_iff_find? {α κ : Type} [DecidableEq κ] [DecidableEq α]
    (key : α → κ) (l : List α) (a : α) :
    a ∈ dedupByKey key l ↔ l.find? (fun b => key b = key a) = some a := by
  induction l using dedupByKey.induct key with
  | case1 => simp [dedupByKey, List.find?]
  | case2 x t ih =>
    rw [dedupByKey]
    constructor
    · intro h
      rcases List.mem_cons.mp h with h1 | h1
      · subst h1
        simp [List.find?]
      · have hne : key a ≠ key x := by
          have hbf := mem_of_mem_dedupByKey _ _ _ h1
          have := (List.mem_filter.mp hbf).2
          simpa using this
        have hxne : ¬ (key x = key a) := fun hh => hne hh.symm
        have hrw := find?_filter_ne_key key (key x) (key a) hne t
        simp only [List.find?, hxne, decide_eq_false hxne]
        rw [← hrw]
        exact (ih.mp h1)
    · intro h
      by_cases hx : key x = key a
      · simp only [List.find?, hx, decide_eq_true_eq] at h
        simp only [hx, if_true, decide_True] at h
        exact List.mem_cons.mpr (Or.inl (Option.some_injective _ h).symm)
      · simp only [List.find?, decide_eq_false hx] at h
        have hne : key a ≠ key x := fun hh => hx hh.symm
        rw [← find?_filter_ne_key key (key x) (key a) hne t] at h
        exact List.mem_cons.mpr (Or.inr (ih.mpr h))

/-- One raw CSV line of `MHC_Diagnosis_Codes.csv` (read with `header=None`);
only columns 0, 1, 4, 5 are used by the loader. -/
structure DiagRow where
  c0 : Cell
  c1 : Cell
  c4 : Cell
  c5 : Cell
deriving DecidableEq

/-- The unioned, cleaned code/description pairs of `load_diagnosis_codes`:
skip the first CSV line (`iloc[1:]`), take the 0/1 pair then the 4/5 pair
(each `dropna` on its code), concatenate, then `astype(str).str.strip()`
both columns. -/
def diagUnion (csvRows : List DiagRow) : List (LC × LC) :=
  let dataRows := csvRows.drop 1
  let part1 := (dataRows.filter (fun r => !r.c0.isNa)).map (fun r => (r.c0, r.c1))
  let part2 := (dataRows.filter (fun r => !r.c4.isNa)).map (fun r => (r.c4, r.c5))
  (part1 ++ part2).map (fun p => (astypeStrStrip p.1, astypeStrStrip p.2))

/-- `load_diagnosis_codes` from `data_loader.py`: union the two
code/description column pairs, then `drop_duplicates(subset=['Code'])`
keeping the first occurrence. -/
def load_diagnosis_codes (csvRows : List DiagRow) : List (LC × LC) :=
  dedupByKey Prod.fst (diagUnion csvRows)

/-- C9: the diagnosis-code load unions the 0-1 and 4-5 column pairs and
deduplicates by code keeping the first occurrence: the persisted table has
pairwise-distinct codes, and a (code, description) row is persisted exactly
when it is the first pair with that code in the unioned list. -/
theorem C9_diagnosis_codes_dedup (csvRows : List DiagRow) :
    ((load_diagnosis_codes csvRows).map Prod.fst).Nodup
    ∧ (∀ c d : LC, (c, d) ∈ load_diagnosis_codes csvRows
        ↔ (diagUnion csvRows).find? (fun q => q.1 = c) = some (c, d)) := by
  refine ⟨nodup_keys_dedupByKey _ _, fun c d => ?_⟩
  have h := mem_dedupByKey_iff_find? Prod.fst (diagUnion csvRows) (c, d)
  exact h

/-- A concrete stand-in for `pd.to_datetime(..., errors='coerce')` used in
closed evaluations: maps a few ISO date texts to their epoch day numbers,
everything else (including NaN) to NaT. -/
def dpEx : Cell → Option Int
  | Cell.str s =>
    if s = "2024-01-01".data then some 19723
    else if s = "2024-01-05".data then some 19727
    else if s = "2024-01-10".data then some 19732
    else if s = "1/1/2020".data then some 18262
    else Option.none
  | Cell.na => Option.none

/-- A concrete stand-in for `pd.to_numeric(..., errors='coerce')` used in
closed evaluations. -/
def npEx : Cell → Option Int
  | Cell.str s => if s = "5".data then some 5 else Option.none
  | Cell.na => Option.none

/-- A source row of `MHC_Mental_Health_Entry.csv`, restricted to the four
columns the extractor reads (name, diagnosis code, description, date). -/
structure MHRow where
  name : Cell
  diag : Cell
  descr : Cell
  date : Cell
deriving DecidableEq

/-- A persisted `PARTICIPANT_DIAGNOSIS` row. -/
structure MHOut where
  pid : Option LC
  code : Cell
  descr : Cell
  adate : Option Int
deriving DecidableEq

/-- Row pipeline of `load_mental_health_data` (columns already resolved;
`hasDescr`/`hasDate` say whether the optional columns were found):
`Diagnosis_Code` is `astype(str).str.strip()` of the code cell — so NaN
becomes the text `"nan"` — and the final
`dropna(subset=['Diagnosis_Code', 'Participant_ID'])` keeps a row iff both
computed fields are non-NA. -/
def load_mental_health_rows (dp : Cell → Option Int) (hasDescr hasDate : Bool)
    (rows : List MHRow) : List MHOut :=
  ((rows.map (fun r =>
    ({ pid := create_participant_id (cellToPy r.name)
       code := Cell.str (astypeStrStrip r.diag)
       descr := if hasDescr then Cell.str (astypeStrStrip r.descr) else Cell.na
       adate := if hasDate then dp r.date else Option.none } : MHOut))).filter
    (fun o => !o.code.isNa && o.pid.isSome))

/-- A source row of `MHC_Risk_Assessment.csv`, restricted to the columns
the extractor reads. -/
structure RiskRow where
  name : Cell
  date : Cell
  score : Cell
  category : Cell
deriving DecidableEq

/-- A persisted `RISK_ASSESSMENT` row. -/
structure RiskOut where
  pid : Option LC
  adate : Option Int
  score : Option Int
  category : Cell
deriving DecidableEq

/-- Row pipeline of `load_risk_assessments`: missing optional columns yield
absent fields, and only `dropna(subset=['Participant_ID'])` filters rows. -/
def load_risk_rows (dp np : Cell → Option Int) (hasDate hasScore hasCat : Bool)
    (rows : List RiskRow) : List RiskOut :=
  ((rows.map (fun r =>
    ({ pid := create_participant_id (cellToPy r.name)
       adate := if hasDate then dp r.date else Option.none
       score := if hasScore then np r.score else Option.none
       category := if hasCat then Cell.str (astypeStrStrip r.category) else Cell.na } : RiskOut))).filter
    (fun o => o.pid.isSome))

/-- A source row of `MHC_Jail_Data_Tracking.csv`, restricted to the columns
the extractor reads. -/
structure JailRow where
  name : Cell
  startc : Cell
  endc : Cell
  daysc : Cell
  costc : Cell
deriving DecidableEq

/-- A persisted `JAIL_DATA` row. -/
structure JailOut where
  pid : Option LC
  startD : Option Int
  endD : Option Int
  days : Option Int
  cost : Option Int
deriving DecidableEq

/-- Pandas subtraction of two nullable dates, in whole days
(`(end_dates - start_dates).dt.days`): NaN if either side is missing. -/
def optSub : Option Int → Option Int → Option Int
  | some a, some b => some (a - b)
  | _, _ => Option.none

/-- The per-row reshaping of `load_jail_data` before the days derivation
(columns already resolved; the four flags say whether each optional column
was found). -/
def jailBase (dp np : Cell → Option Int) (hS hE hD hC : Bool)
    (rows : List JailRow) : List JailOut :=
  rows.map (fun r =>
    ({ pid := create_participant_id (cellToPy r.name)
       startD := if hS then dp r.startc else Option.none
       endD := if hE then dp r.endc else Option.none
       days := if hD then np r.daysc else Option.none
       cost := if hC then np r.costc else Option.none } : JailOut))

/-- Row pipeline of `load_jail_data`: the `Days_Incarcerated` column is
derived from the dates only under the source's column-level guard
`df['Days_Incarcerated'].isna().all()`; finally
`dropna(subset=['Participant_ID'])`. -/
def load_jail_rows (dp np : Cell → Option Int) (hS hE hD hC : Bool)
    (rows : List JailRow) : List JailOut :=
  (if (jailBase dp np hS hE hD hC rows).all (fun o => o.days.isNone) then
    (jailBase dp np hS hE hD hC rows).map (fun o => { o with days := optSub o.endD o.startD })
  else jailBase dp np hS hE hD hC rows).filter (fun o => o.pid.isSome)

/-- A source row of `MHC_Criminal_History_Data.csv`, restricted to the
columns the extractor reads. -/
structure ChargeRow where
  firstc : Cell
  lastc : Cell
  datec : Cell
  offensec : Cell
  classc : Cell
  statusc : Cell
  outcomec : Cell
deriving DecidableEq

/-- A persisted `PARTICIPANT_CHARGE` row (with the `Offense_ID` the left
merge against the deduplicated offense table assigns). -/
structure ChargeOut where
  pid : Option LC
  offenseId : Nat
  chargeDate : Option Int
  status : Cell
  outcome : Cell
deriving DecidableEq

/-- The name text built by `load_criminal_charges`:
`last.astype(str).str.strip() + ', ' + first.astype(str).str.strip()`
(a NaN name cell stringifies to `"nan"`). -/
def chargeName (r : ChargeRow) : LC :=
  astypeStrStrip r.lastc ++ ", ".data ++ astypeStrStrip r.firstc

/-- Zero-based position of the first occurrence of `p` in a list of raw
offense/class pairs (the pandas merge key lookup; pandas matches NaN merge
keys to NaN, so plain cell equality is the right notion). -/
def idxOfPair (p : Cell × Cell) : List (Cell × Cell) → Nat
  | [] => 0
  | q :: t => if q = p then 0 else idxOfPair p t + 1

/-- Row pipeline of `load_criminal_charges` (columns already resolved):
keep only rows whose raw charge-date cell is non-NA, derive the
participant id from the concatenated name text, assign `Offense_ID` as
1 + the position of the row's raw (offense, class) pair in the
`drop_duplicates()` list, parse the charge date, and rewrite
`'G/Convicted'` to `'Convicted'` inside the outcome text.  No
participant-id filter is applied. -/
def load_criminal_charges_rows (dp : Cell → Option Int) (hasStatus hasOutcome : Bool)
    (rows : List ChargeRow) : List ChargeOut :=
  let dated := rows.filter (fun r => !r.datec.isNa)
  let offenses := dedupByKey (fun p => p) (dated.map (fun r => (r.offensec, r.classc)))
  dated.map (fun r =>
    ({ pid := create_participant_id (PyVal.str (chargeName r))
       offenseId := idxOfPair (r.offensec, r.classc) offenses + 1
       chargeDate := dp r.datec
       status := if hasStatus then r.statusc else Cell.na
       outcome :=
         if hasOutcome then
           Cell.str (pyStrip (replaceSub "G/Convicted".data "Convicted".data
             (astypeStr r.outcomec)))
         else Cell.na } : ChargeOut))

/-- A source row of one treatment file, restricted to the columns the
extractor reads. -/
structure TreatRow where
  name : Cell
  startc : Cell
  endc : Cell
  typec : Cell
  providerc : Cell
  outcomec : Cell
deriving DecidableEq

/-- One treatment source file as `load_treatment_episodes` sees it: its
name, whether it exists, which optional columns resolved, and its rows. -/
structure TreatFile where
  file : LC
  present : Bool
  hasName : Bool
  hasStart : Bool
  hasEnd : Bool
  hasType : Bool
  hasProv : Bool
  hasOutcome : Bool
  rows : List TreatRow
deriving DecidableEq

/-- A persisted `TREATMENT_EPISODE` row. -/
structure TreatOut where
  pid : Option LC
  ttype : LC
  startD : Option Int
  endD : Option Int
  service : Cell
  provider : Cell
  outcome : Cell
deriving DecidableEq

/-- The `Treatment_Type` tag of `load_treatment_episodes`: decided by
substring tests on the file name (`if 'MH' in file ... elif 'CD' in file`). -/
def treatment_type_for_file (f : LC) : LC :=
  if isSubstr "MH".data f then "Mental Health".data
  else if isSubstr "CD".data f then "Chemical Dependency".data
  else "Unknown".data

/-- The fixed treatment file list of `load_treatment_episodes`. -/
def treatment_files : List LC :=
  ["MHC_Treatment_MH_FY23.csv".data, "MHC_Treatment_MH_FY24.csv".data,
   "MHC_Treatment_MH_FY25.csv".data, "MHC_Treatment_CD_FY23.csv".data,
   "MHC_Treatment_CD_FY24.csv".data, "MHC_Treatment_CD_FY25.csv".data,
   "MHC_Treatment_Historical.csv".data]

/-- Rows one treatment file contributes: nothing if the file is absent or
its participant-name column cannot be resolved; otherwise the reshaped rows
with `dropna(subset=['Participant_ID'])` applied. -/
def treatment_file_rows (dp : Cell → Option Int) (f : TreatFile) : List TreatOut :=
  if f.present && f.hasName then
    ((f.rows.map (fun r =>
      ({ pid := create_participant_id (cellToPy r.name)
         ttype := treatment_type_for_file f.file
         startD := if f.hasStart then dp r.startc else Option.none
         endD := if f.hasEnd then dp r.endc else Option.none
         service := if f.hasType then Cell.str (astypeStrStrip r.typec) else Cell.na
         provider := if f.hasProv then Cell.str (astypeStrStrip r.providerc) else Cell.na
         outcome := if f.hasOutcome then Cell.str (astypeStrStrip r.outcomec) else Cell.na } : TreatOut))).filter
      (fun o => o.pid.isSome))
  else []

/-- `load_treatment_episodes`: union (concatenate, in file-list order) the
per-file row batches into one `TREATMENT_EPISODE` table. -/
def load_treatment_episodes (dp : Cell → Option Int) (files : List TreatFile) : List TreatOut :=
  files.foldr (fun f acc => treatment_file_rows dp f ++ acc) []

/-- A source row of `MHC_Psychosocial_Assessment.csv`: the name and date
cells plus the row's cells under the remaining columns. -/
structure PsychRow where
  name : Cell
  date : Cell
  others : List Cell
deriving DecidableEq

/-- A persisted `PSYCHOSOCIAL_ASSESSMENT` row: id, date, and the verbatim
cells of the first 10 remaining columns. -/
structure PsychOut where
  pid : Option LC
  adate : Option Int
  others : List Cell
deriving DecidableEq

/-- Row pipeline of `load_psychosocial_assessments`: participant id, the
parsed date if a date column resolved, the first 10 other columns verbatim,
then `dropna(subset=['Participant_ID'])`. -/
def load_psychosocial_rows (dp : Cell → Option Int) (hasDate : Bool)
    (rows : List PsychRow) : List PsychOut :=
  ((rows.map (fun r =>
    ({ pid := create_participant_id (cellToPy r.name)
       adate := if hasDate then dp r.date else Option.none
       others := r.others.take 10 } : PsychOut))).filter
    (fun o => o.pid.isSome))

/-- A source row of `MHC_Participant_Roster.csv`, restricted to the columns
the enrollment load reads. -/
structure RosterRow where
  name : Cell
  dstart : Cell
  dend : Cell
  lengthDays : Cell
  estatus : Cell
deriving DecidableEq

/-- A persisted `MHC_ENROLLMENT` row. -/
structure EnrollOut where
  pid : Option LC
  startD : Option Int
  endD : Option Int
  estatus : Cell
  lengthDays : Cell
deriving DecidableEq

/-- Enrollment pipeline of `load_participants_and_enrollment`: parse both
dates, keep `End Status` and `Length of MHC` verbatim, then
`dropna(subset=['Participant_ID', 'Start_Date'])`. -/
def load_enrollment_rows (dp : Cell → Option Int) (rows : List RosterRow) : List EnrollOut :=
  ((rows.map (fun r =>
    ({ pid := create_participant_id (cellToPy r.name)
       startD := dp r.dstart
       endD := dp r.dend
       estatus := r.estatus
       lengthDays := r.lengthDays } : EnrollOut))).filter
    (fun o => o.pid.isSome && o.startD.isSome))

/-- Modelled from the spec: the persisted store of the embedded database
engine, a list of named tables (the engine itself is out of scope, exposed
only through an execute-script/insert-rows/commit/rollback contract). -/
abbrev TableData := List (List Cell)

/-- A pending `to_sql(..., if_exists='replace')` write: table name and the
replacement contents. -/
abbrev Write := LC × TableData

/-- Modelled from the spec: the store contents (committed state of the
single database file). -/
abbrev Store := List (LC × TableData)

/-- The result of one extractor: the table writes it hands to the sink, or
an unhandled exception. -/
abbrev ExtRes := Except Unit (List Write)

/-- Replace a table's contents wholesale (creating it when absent). -/
def setTable (s : Store) (n : LC) (d : TableData) : Store :=
  if s.any (fun p => p.1 == n) then
    s.map (fun p => if p.1 == n then (n, d) else p)
  else s ++ [(n, d)]

/-- Apply a batch of table writes in order. -/
def applyWrites (s : Store) (ws : List Write) : Store :=
  ws.foldl (fun acc w => setTable acc w.1 w.2) s

/-- Run the extractor sequence against the pending transaction state:
stop with `none` at the first unhandled exception, otherwise return the
fully-written pending state. -/
def runExts : List ExtRes → Store → Option Store
  | [], s => some s
  | Except.error _ :: _, _ => Option.none
  | Except.ok ws :: t, s => runExts t (applyWrites s ws)

/-- `load_data` from `data_loader.py` over the modelled sink: run every
extractor inside one transaction, `conn.commit()` at the end on success,
`conn.rollback()` on any unhandled exception.  Returns the resulting store
contents and whether the run committed. -/
def load_data_model (exts : List ExtRes) (init : Store) : Store × Bool :=
  match runExts exts init with
  | some pending => (pending, true)
  | Option.none => (init, false)

/-- Did this extractor raise an unhandled exception? -/
def isErrRes : ExtRes → Bool
  | Except.error _ => true
  | Except.ok _ => false

/-- The table writes of the successful extractors, in run order. -/
def oksWrites : List ExtRes → List Write
  | [] => []
  | Except.ok ws :: t => ws ++ oksWrites t
  | Except.error _ :: t => oksWrites t

lemma runExts_eq (exts : List ExtRes) (s : Store) :
    runExts exts s =
      if exts.any isErrRes then Option.none
      else some (applyWrites s (oksWrites exts)) := by
  induction exts generalizing s with
  | nil => simp [runExts, oksWrites, applyWrites]
  | cons e t ih =>
    cases e with
    | error u =>
      simp [runExts, List.any_cons, isErrRes]
    | ok ws =>
      rw [runExts, ih]
      by_cases ht : t.any isErrRes = true
      · simp [List.any_cons, isErrRes, ht]
      · simp only [Bool.not_eq_true] at ht
        simp [List.any_cons, isErrRes, ht, oksWrites, applyWrites, List.foldl_append]

lemma oksWrites_append (l1 l2 : List ExtRes) :
    oksWrites (l1 ++ l2) = oksWrites l1 ++ oksWrites l2 := by
  induction l1 with
  | nil => simp [oksWrites]
  | cons e t ih =>
    cases e with
    | error u => simpa [oksWrites] using ih
    | ok ws => simp [oksWrites, ih]

/-- The roster extractor's outcome as a function of the resolved inputs:
a missing CSV is a non-fatal skip, but a roster (or demographics) file
without the exact `'Participant Name'` column raises (`raise KeyError`). -/
def load_participants_and_enrollment_res (rosterPresent demoPresent : Bool)
    (rosterCols demoCols : List LC) (ws : List Write) : ExtRes :=
  if !(rosterPresent && demoPresent) then Except.ok []
  else if !(rosterCols.contains "Participant Name".data) then Except.error ()
  else if !(demoCols.contains "Participant Name".data) then Except.error ()
  else Except.ok ws

/-- The charge-date column resolution of `load_criminal_charges`: first an
exact (case-insensitive) `'CHARGE DATE'` header, then any header containing
`CHARGE` and `DATE` but not `MHC`. -/
def find_charge_date_col (cols : List LC) : Option LC :=
  match cols.find? (fun c => pyUpper c == "CHARGE DATE".data) with
  | some c => some c
  | Option.none =>
    cols.find? (fun c =>
      isSubstr "CHARGE".data (pyUpper c) && isSubstr "DATE".data (pyUpper c)
        && !(isSubstr "MHC".data (pyUpper c)))

/-- The name-column loop of `load_criminal_charges` assigns on every match
without breaking, so the last matching header wins. -/
def lastMatching (p : LC → Bool) (cols : List LC) : Option LC :=
  cols.foldl (fun acc c => if p c then some c else acc) Option.none

/-- First-name column resolution of `load_criminal_charges`. -/
def find_first_name_col (cols : List LC) : Option LC :=
  match lastMatching (fun c => pyUpper c == "FIRST NAME".data) cols with
  | some c => some c
  | Option.none => find_column_by_keywords cols ["FIRST".data] false

/-- Last-name column resolution of `load_criminal_charges`. -/
def find_last_name_col (cols : List LC) : Option LC :=
  match lastMatching (fun c => pyUpper c == "LAST NAME".data) cols with
  | some c => some c
  | Option.none => find_column_by_keywords cols ["LAST".data] false

/-- Offense column resolution: exact match preferred, then substring. -/
def find_offense_col (cols : List LC) : Option LC :=
  match find_column_by_keywords cols ["OFFENSE".data] true with
  | some c => some c
  | Option.none => find_column_by_keywords cols ["OFFENSE".data] false

/-- Class column resolution: exact match preferred, then substring. -/
def find_class_col (cols : List LC) : Option LC :=
  match find_column_by_keywords cols ["CLASS".data] true with
  | some c => some c
  | Option.none => find_column_by_keywords cols ["CLASS".data] false

/-- The charges extractor's outcome as a function of its header list: every
required-column failure prints a diagnostic and returns without writing
(`Except.ok []`), never raising. -/
def load_criminal_charges_res (cols : List LC) (ws : List Write) : ExtRes :=
  match find_charge_date_col cols with
  | Option.none => Except.ok []
  | some _ =>
    match find_first_name_col cols, find_last_name_col cols with
    | some _, some _ =>
      match find_offense_col cols, find_class_col cols with
      | some _, some _ => Except.ok ws
      | _, _ => Except.ok []
    | _, _ => Except.ok []

lemma all_filter_of_imp {α : Type} (p q : α → Bool) (l : List α)
    (h : ∀ a, p a = true → q a = true) : ((l.filter p).all q) = true := by
  rw [List.all_eq_true]
  intro a ha
  exact h a (List.of_mem_filter ha)

lemma charges_all_pid_isSome (dp : Cell → Option Int) (hS hO : Bool)
    (rows : List ChargeRow) :
    ((load_criminal_charges_rows dp hS hO rows).all (fun o => o.pid.isSome)) = true := by
  rw [List.all_eq_true]
  intro o ho
  simp only [load_criminal_charges_rows, List.mem_map] at ho
  obtain ⟨r, _, rfl⟩ := ho
  rfl

lemma treatment_file_all_pid_isSome (dp : Cell → Option Int) (f : TreatFile) :
    ((treatment_file_rows dp f).all (fun o => o.pid.isSome)) = true := by
  unfold treatment_file_rows
  by_cases h : (f.present && f.hasName) = true
  · rw [if_pos h]
    exact all_filter_of_imp _ _ _ (fun o ho => ho)
  · rw [if_neg h]
    rfl

lemma treatments_all_pid_isSome (dp : Cell → Option Int) (files : List TreatFile) :
    ((load_treatment_episodes dp files).all (fun o => o.pid.isSome)) = true := by
  induction files with
  | nil => rfl
  | cons f t ih =>
    have hcons : load_treatment_episodes dp (f :: t)
        = treatment_file_rows dp f ++ load_treatment_episodes dp t := rfl
    rw [hcons, List.all_append, treatment_file_all_pid_isSome, ih]
    rfl

/-- C6: no persisted fact-table row has a null participant id.  Rows whose
derived id is absent are filtered out of `PARTICIPANT_DIAGNOSIS`,
`RISK_ASSESSMENT`, `JAIL_DATA`, `TREATMENT_EPISODE`,
`PSYCHOSOCIAL_ASSESSMENT` and `MHC_ENROLLMENT` by their `dropna` filters,
and in `PARTICIPANT_CHARGE` the id is built from stringified name cells and
is therefore never null in the first place. -/
theorem C6_no_null_participant_id (dp np : Cell → Option Int)
    (hStat hOut hDescr hMDate hRDate hScore hCat hS hE hD hC hPDate : Bool)
    (crows : List ChargeRow) (mrows : List MHRow) (rrows : List RiskRow)
    (jrows : List JailRow) (tfiles : List TreatFile) (prows : List PsychRow)
    (erows : List RosterRow) :
    ((load_criminal_charges_rows dp hStat hOut crows).all (fun o => o.pid.isSome)) = true
    ∧ ((load_mental_health_rows dp hDescr hMDate mrows).all (fun o => o.pid.isSome)) = true
    ∧ ((load_risk_rows dp np hRDate hScore hCat rrows).all (fun o => o.pid.isSome)) = true
    ∧ ((load_jail_rows dp np hS hE hD hC jrows).all (fun o => o.pid.isSome)) = true
    ∧ ((load_treatment_episodes dp tfiles).all (fun o => o.pid.isSome)) = true
    ∧ ((load_psychosocial_rows dp hPDate prows).all (fun o => o.pid.isSome)) = true
    ∧ ((load_enrollment_rows dp erows).all (fun o => o.pid.isSome)) = true := by
  refine ⟨charges_all_pid_isSome dp hStat hOut crows, ?_, ?_, ?_,
    treatments_all_pid_isSome dp tfiles, ?_, ?_⟩
  · refine all_filter_of_imp _ _ _ (fun o ho => ?_)
    rw [Bool.and_eq_true] at ho
    exact ho.2
  · exact all_filter_of_imp _ _ _ (fun o ho => ho)
  · exact all_filter_of_imp _ _ _ (fun o ho => ho)
  · exact all_filter_of_imp _ _ _ (fun o ho => ho)
  · refine all_filter_of_imp _ _ _ (fun o ho => ?_)
    rw [Bool.and_eq_true] at ho
    exact ho.1

/-- C10: in the charges extractor the participant id is the normalization
of the stringified `"Last, First"` text, hence never null — even for rows
with missing name cells, which normalize to `"nan-nan"` — and no
participant-id filter is applied: every dated row is persisted. -/
theorem C10_charges_never_null_pid (dp : Cell → Option Int) (hS hO : Bool)
    (rows : List ChargeRow) :
    ((load_criminal_charges_rows dp hS hO rows).all (fun o => o.pid.isSome)) = true
    ∧ (load_criminal_charges_rows dp hS hO rows).length
        = (rows.filter (fun r => !r.datec.isNa)).length
    ∧ (load_criminal_charges_rows dpEx true true
        [{ firstc := Cell.na, lastc := Cell.na, datec := Cell.str "1/1/2020".data,
           offensec := Cell.na, classc := Cell.na, statusc := Cell.na,
           outcomec := Cell.na }]).map (fun o => o.pid)
      = [some "nan-nan".data] := by
  refine ⟨charges_all_pid_isSome dp hS hO rows, ?_, rfl⟩
  simp [load_criminal_charges_rows]

/-- C1: the file-name tag test `'MH' in file` matches every treatment file
(the `MHC_` prefix contains `MH`), so the CD-tagged files are persisted
with `Treatment_Type = 'Mental Health'`, not `'Chemical Dependency'`:
shown for `MHC_Treatment_CD_FY23.csv`, for the whole file list, and for a
persisted row loaded from a CD file. -/
theorem C1_cd_files_tagged_mental_health :
    treatment_type_for_file "MHC_Treatment_CD_FY23.csv".data = "Mental Health".data
    ∧ (treatment_files.contains "MHC_Treatment_CD_FY23.csv".data) = true
    ∧ (treatment_files.all (fun f => treatment_type_for_file f == "Mental Health".data)) = true
    ∧ (load_treatment_episodes dpEx
        [{ file := "MHC_Treatment_CD_FY23.csv".data, present := true, hasName := true,
           hasStart := true, hasEnd := true, hasType := true, hasProv := true,
           hasOutcome := true,
           rows := [{ name := Cell.str "Smith, John".data, startc := Cell.na,
                      endc := Cell.na, typec := Cell.na, providerc := Cell.na,
                      outcomec := Cell.na }] }]).map (fun o => o.ttype)
      = ["Mental Health".data] := by
  exact ⟨rfl, rfl, rfl, rfl⟩

/-- C4: a mental-health row with a missing diagnosis-code cell is NOT
dropped: `astype(str)` turns NaN into the text `"nan"` before the
`dropna(subset=['Diagnosis_Code', ...])`, so the row is persisted with
`Diagnosis_Code = "nan"` (the participant-id half of the filter works). -/
theorem C4_missing_diagnosis_code_row_persisted :
    load_mental_health_rows dpEx true true
      [{ name := Cell.str "Smith, John".data, diag := Cell.na,
         descr := Cell.na, date := Cell.na }]
    = [{ pid := some "smith-john".data, code := Cell.str "nan".data,
         descr := Cell.str "nan".data, adate := Option.none }]
    ∧ load_mental_health_rows dpEx true true
        [{ name := Cell.na, diag := Cell.str "F32.9".data,
           descr := Cell.na, date := Cell.na }] = [] := by
  exact ⟨rfl, rfl⟩

/-- C5 counterexample: with one row carrying an explicit days value, the
column-level guard `isna().all()` is false, so a second row lacking an
explicit days value but with parseable start/end dates keeps days = NaN
instead of end − start = 5. -/
theorem C5_counterexample_no_rowwise_derivation :
    npEx Cell.na = Option.none
    ∧ dpEx (Cell.str "2024-01-05".data) = some 19727
    ∧ dpEx (Cell.str "2024-01-10".data) = some 19732
    ∧ (load_jail_rows dpEx npEx true true true true
        [{ name := Cell.str "Smith, John".data, startc := Cell.str "2024-01-01".data,
           endc := Cell.str "2024-01-05".data, daysc := Cell.str "5".data,
           costc := Cell.na },
         { name := Cell.str "Doe, Jane".data, startc := Cell.str "2024-01-05".data,
           endc := Cell.str "2024-01-10".data, daysc := Cell.na,
           costc := Cell.na }]).map (fun o => o.days)
      = [some 5, Option.none]
    ∧ (Option.none : Option Int) ≠ some ((19732 : Int) - 19727) := by
  refine ⟨rfl, rfl, rfl, rfl, by decide⟩

/-- C5, amended: the days derivation is column-level, not row-level — only
when no row of the file has an explicit (parseable) days value is
`Days_Incarcerated` computed as end − start for every persisted row
(negative results passed through uncorrected); otherwise rows keep their
own parsed days value, absent ones included. -/
theorem C5_amended_column_level_derivation (dp np : Cell → Option Int)
    (hS hE hD hC : Bool) (rows : List JailRow)
    (h : ∀ r ∈ rows, (if hD then np r.daysc else Option.none) = Option.none) :
    ∀ o ∈ load_jail_rows dp np hS hE hD hC rows, o.days = optSub o.endD o.startD := by
  intro o ho
  unfold load_jail_rows at ho
  have hall : ((jailBase dp np hS hE hD hC rows).all (fun o => o.days.isNone)) = true := by
    rw [List.all_eq_true]
    intro x hx
    rcases List.mem_map.mp hx with ⟨r, hr, rfl⟩
    simp [h r hr]
  rw [if_pos hall] at ho
  have ho2 := List.mem_of_mem_filter ho
  rcases List.mem_map.mp ho2 with ⟨b, hb, rfl⟩
  rfl

/-- A jail row with no explicit days value and end date before start date. -/
def jailRowNeg : JailRow :=
  { name := Cell.str "Doe, Jane".data, startc := Cell.str "2024-01-10".data,
    endc := Cell.str "2024-01-05".data, daysc := Cell.na, costc := Cell.na }

/-- The persisted row derived from `jailRowNeg`: days = end − start = −5,
passed through uncorrected. -/
def jailOutNeg : JailOut :=
  { pid := some "doe-jane".data, startD := some 19732, endD := some 19727,
    days := some (-5), cost := Option.none }

theorem C5_amended_column_level_derivation_witness :
    jailOutNeg ∈ load_jail_rows dpEx npEx true true true true [jailRowNeg]
    ∧ jailOutNeg.days = optSub jailOutNeg.endD jailOutNeg.startD :=
  ⟨by decide,
   C5_amended_column_level_derivation dpEx npEx true true true true [jailRowNeg]
     (by decide) jailOutNeg (by decide)⟩

/-- C7: one enclosing transaction makes a run all-or-nothing — the store
after `load_data` is the unchanged initial store when any extractor raised
(rollback), and otherwise the initial store with every extractor's table
writes applied (commit); no partial mixture is reachable. -/
theorem C7_run_all_or_nothing (exts : List ExtRes) (init : Store) :
    load_data_model exts init =
      if exts.any isErrRes then (init, false)
      else (applyWrites init (oksWrites exts), true) := by
  unfold load_data_model
  rw [runExts_eq]
  by_cases h : exts.any isErrRes = true
  · simp [h]
  · simp only [Bool.not_eq_true] at h
    simp [h]

/-- C8: a roster file without the `'Participant Name'` column raises, so
the whole run rolls back and never commits; a charges file without a
resolvable charge-date column only makes that extractor return without
writing, and the rest of the run still commits. -/
theorem C8_roster_fatal_other_sources_skip
    (rosterCols demoCols chargeCols : List LC) (ws cws : List Write)
    (pre post : List ExtRes) (init : Store)
    (hr : rosterCols.contains "Participant Name".data = false)
    (hc : find_charge_date_col chargeCols = Option.none)
    (hok : ∀ e ∈ pre ++ post, isErrRes e = false) :
    load_participants_and_enrollment_res true true rosterCols demoCols ws
      = Except.error ()
    ∧ load_data_model
        (pre ++ load_participants_and_enrollment_res true true rosterCols demoCols ws :: post)
        init = (init, false)
    ∧ load_criminal_charges_res chargeCols cws = Except.ok []
    ∧ load_data_model (pre ++ load_criminal_charges_res chargeCols cws :: post) init
        = (applyWrites init (oksWrites pre ++ oksWrites post), true) := by
  have h1 : load_participants_and_enrollment_res true true rosterCols demoCols ws
      = Except.error () := by
    unfold load_participants_and_enrollment_res
    rw [hr]
    rfl
  have h3 : load_criminal_charges_res chargeCols cws = Except.ok [] := by
    unfold load_criminal_charges_res
    rw [hc]
  refine ⟨h1, ?_, h3, ?_⟩
  · unfold load_data_model
    rw [runExts_eq]
    have hany : (pre ++ load_participants_and_enrollment_res true true rosterCols demoCols ws :: post).any
        isErrRes = true := by
      rw [h1, List.any_append, List.any_cons]
      simp [isErrRes]
    rw [hany]
    rfl
  · unfold load_data_model
    rw [runExts_eq]
    have hp : pre.any isErrRes = false := by
      rw [List.any_eq_false]
      intro x hx
      simp [hok x (List.mem_append_left _ hx)]
    have hq : post.any isErrRes = false := by
      rw [List.any_eq_false]
      intro x hx
      simp [hok x (List.mem_append_right _ hx)]
    have hany : (pre ++ load_criminal_charges_res chargeCols cws :: post).any isErrRes
        = false := by
      rw [h3, List.any_append, List.any_cons, hp, hq]
      rfl
    rw [hany, h3]
    have hw : oksWrites (pre ++ Except.ok [] :: post) = oksWrites pre ++ oksWrites post := by
      rw [oksWrites_append]
      simp [oksWrites]
    rw [hw]
    rfl

theorem C8_roster_fatal_other_sources_skip_witness :
    (["X".data] : List LC).contains "Participant Name".data = false
    ∧ find_charge_date_col ["Foo".data] = Option.none
    ∧ load_data_model
        ([Except.ok [("T".data, ([[Cell.na]] : TableData))]]
          ++ load_participants_and_enrollment_res true true ["X".data]
              ["Participant Name".data] [] :: ([] : List ExtRes)) []
      = ([], false)
    ∧ load_data_model
        ([Except.ok [("T".data, ([[Cell.na]] : TableData))]]
          ++ load_criminal_charges_res ["Foo".data] [] :: ([] : List ExtRes)) []
      = (applyWrites []
          (oksWrites [Except.ok [("T".data, ([[Cell.na]] : TableData))]]
            ++ oksWrites ([] : List ExtRes)), true) := by
  have h := C8_roster_fatal_other_sources_skip ["X".data] ["Participant Name".data]
    ["Foo".data] [] [] [Except.ok [("T".data, ([[Cell.na]] : TableData))]] [] []
    (by decide) (by decide) (by decide)
  exact ⟨by decide, by decide, h.2.1, h.2.2.2⟩
